import Mathlib

/-!
# Verification of the murex project registry and template engine

Shallow embedding of the core of the murex CLI (a Rust tool that scaffolds,
tracks, builds and installs small CLI projects) together with proofs about
the properties its specification states.

The embedding follows the Rust sources:
* `src/project.rs`   — `Project`, `ProjectRegistry`, `ProjectManager`
* `src/config.rs`    — `Config`
* `src/templates.rs` — `TemplateManager` (built-in and custom templates)
* `src/path_manager.rs` — `PathManager` (artifact resolution, install)

File-system effects are modelled explicitly: existence checks become a
function `String → Bool`, fallible calls become `Except`-valued results, and
the persisted registry document becomes a JSON value.
-/

set_option maxHeartbeats 1000000

namespace Murex

/-- Error taxonomy of the core (anyhow errors classified per the spec). -/
inductive MurexError where
  | alreadyExists
  | notFound
  | unknownTemplate
  | invalidPath
  | parseError
  | ioError
deriving DecidableEq, Repr

/-- A tracked project record (`Project`, src/project.rs lines 11-18).
Paths are modelled as plain strings. -/
structure Project where
  name : String
  path : String
  template : String
  created_at : String
  last_built : Option String
deriving DecidableEq, Repr

/-- `PathBuf::join` on the paths that occur in this development
(no component is absolute). -/
def pathJoin (a b : String) : String := a ++ "/" ++ b

/-- The registry of tracked projects (`ProjectRegistry`, src/project.rs
lines 200-203): an ordered list of records. -/
structure ProjectRegistry where
  projects : List Project
deriving DecidableEq, Repr

/-- `ProjectRegistry::add_project` (src/project.rs lines 231-235): remove any
existing record with the same name (`retain`), then push the new one. -/
def ProjectRegistry.addProject (r : ProjectRegistry) (p : Project) : ProjectRegistry :=
  ⟨(r.projects.filter (fun q => q.name != p.name)) ++ [p]⟩

/-- `ProjectRegistry::remove_project` (src/project.rs lines 237-241), the
mutation part: `retain` every record whose name differs. -/
def ProjectRegistry.removeProjectReg (r : ProjectRegistry) (name : String) : ProjectRegistry :=
  ⟨r.projects.filter (fun p => p.name != name)⟩

/-- `ProjectRegistry::remove_project`, the returned boolean: whether the
length changed, i.e. whether some record had the name. -/
def ProjectRegistry.removedAny (r : ProjectRegistry) (name : String) : Bool :=
  r.projects.any (fun p => p.name == name)

/-- `ProjectRegistry::get_project` (src/project.rs lines 243-245): first
record with the given name. -/
def ProjectRegistry.getProject (r : ProjectRegistry) (name : String) : Option Project :=
  r.projects.find? (fun p => p.name == name)

/-- Spec-side definition for claim C1: the most-recently-added record with a
given name in a sequence of `add_project` arguments. -/
def lastAddedRecord (ps : List Project) (n : String) : Option Project :=
  (ps.filter (fun p => p.name == n)).getLast?

/-- The `Config` struct exactly as declared in src/config.rs lines 6-12.
Note: it has fields `default_template`, `projects_dir`, `auto_build`,
`editor` and nothing else. -/
structure Config where
  default_template : String
  projects_dir : String
  auto_build : Bool
  editor : Option String
deriving DecidableEq, Repr

/-- The serialized field names of `Config` (serde derive on the struct of
src/config.rs lines 6-12 serializes exactly the declared fields under their
Rust names). -/
def Config.fieldNames : List String :=
  ["default_template", "projects_dir", "auto_build", "editor"]

/-- `Config::default` (src/config.rs lines 14-25), with the home directory
and the `EDITOR` environment variable passed in explicitly. -/
def Config.defaultConfig (homeDir : String) (editorEnv : Option String) : Config :=
  { default_template := "rust"
    projects_dir := pathJoin homeDir "murex-projects"
    auto_build := false
    editor := editorEnv }

/-- The `bin_dir` value that `handle_config_command`'s `Init` branch writes
into the record it constructs (src/cli.rs line 333): `projects_dir.join("bin")`.
The struct it constructs does not type-check against the `Config` declaration
of src/config.rs, which lacks the field. -/
def cliInitBinDir (projects_dir : String) : String := pathJoin projects_dir "bin"

end Murex

namespace Murex

/-! ## Generic list helper lemmas used by the registry proofs -/

theorem find?_names_filter_ne (l : List Project) {n m : String} (h : n ≠ m) :
    (l.filter (fun q => q.name != m)).find? (fun q => q.name == n)
      = l.find? (fun q => q.name == n) := by
  induction l with
  | nil => rfl
  | cons q l ih =>
    by_cases hq : q.name = n
    · have hne : q.name ≠ m := by rw [hq]; exact h
      simp [List.filter_cons, hne, hq, h]
    · by_cases hm : q.name = m
      · have hnn : q.name ≠ n := by rw [hm]; exact Ne.symm h
        rw [List.find?_cons_of_neg _ (by simp [hnn])]
        simp [List.filter_cons, hm, ih]
      · simp [List.filter_cons, hm, hq, ih]

theorem nodup_names_addProject (r : ProjectRegistry) (p : Project)
    (h : (r.projects.map Project.name).Nodup) :
    (((r.addProject p).projects).map Project.name).Nodup := by
  unfold ProjectRegistry.addProject
  simp only [List.map_append, List.map_cons, List.map_nil]
  rw [List.nodup_append]
  refine ⟨?_, List.nodup_singleton _, ?_⟩
  · exact ((List.filter_sublist _).map Project.name).nodup h
  · intro x hx
    simp only [List.mem_map] at hx
    obtain ⟨q, hq, rfl⟩ := hx
    have := List.of_mem_filter hq
    simp only [bne_iff_ne, ne_eq] at this
    simp [this]

/-- Names present after a fold of `addProject` either come from the start
registry or from the added records; used nowhere else but kept as a sanity
check of the model. -/
theorem getProject_addProject_self (r : ProjectRegistry) (p : Project) :
    (r.addProject p).getProject p.name = some p := by
  unfold ProjectRegistry.addProject ProjectRegistry.getProject
  rw [List.find?_append]
  have hnone : (r.projects.filter (fun q => q.name != p.name)).find?
      (fun q => q.name == p.name) = none := by
    rw [List.find?_eq_none]
    intro q hq
    have := List.of_mem_filter hq
    simp only [bne_iff_ne, ne_eq] at this
    simp [this]
  rw [hnone]
  simp

theorem getProject_addProject_other (r : ProjectRegistry) (p : Project) {n : String}
    (h : n ≠ p.name) :
    (r.addProject p).getProject n = r.getProject n := by
  unfold ProjectRegistry.addProject ProjectRegistry.getProject
  rw [List.find?_append, find?_names_filter_ne _ h]
  cases hf : r.projects.find? (fun q => q.name == n) with
  | some q => simp
  | none => simp [Ne.symm h]

/-- C1 helper: `lastAddedRecord` over a snoc. -/
theorem lastAddedRecord_concat (ps : List Project) (p : Project) (n : String) :
    lastAddedRecord (ps ++ [p]) n =
      if p.name = n then some p else lastAddedRecord ps n := by
  unfold lastAddedRecord
  rw [List.filter_append]
  by_cases h : p.name = n
  · simp [h]
  · simp [h, List.filter_cons, List.filter_nil]

/--
C1: for every sequence of `add_project` calls on a registry whose names are
pairwise distinct, the resulting registry holds at most one record per
distinct name (its name list is duplicate-free), and for every name added
during the sequence, `get_project` returns the most-recently-added record
with that name (so re-adding a name replaces rather than appends).
-/
theorem addProject_sequence_upsert (start : ProjectRegistry)
    (hstart : (start.projects.map Project.name).Nodup) (ps : List Project) :
    (((ps.foldl ProjectRegistry.addProject start).projects).map Project.name).Nodup
    ∧ ∀ n q, lastAddedRecord ps n = some q →
        (ps.foldl ProjectRegistry.addProject start).getProject n = some q := by
  induction ps using List.reverseRecOn with
  | nil =>
    refine ⟨hstart, ?_⟩
    intro n q h
    simp [lastAddedRecord] at h
  | append_singleton ps p ih =>
    obtain ⟨ihN, ihG⟩ := ih
    rw [List.foldl_append]
    simp only [List.foldl_cons, List.foldl_nil]
    refine ⟨nodup_names_addProject _ _ ihN, ?_⟩
    intro n q h
    rw [lastAddedRecord_concat] at h
    by_cases hpn : p.name = n
    · rw [if_pos hpn] at h
      cases h
      rw [← hpn, getProject_addProject_self]
    · rw [if_neg hpn] at h
      rw [getProject_addProject_other _ _ (fun hc => hpn hc.symm)]
      exact ihG n q h

/-- Witness for C1 at a concrete input: adding two records named `a` leaves
a single record, the later one. -/
theorem addProject_sequence_upsert_witness :
    ((([⟨"a", "/p/a1", "rust", "t1", none⟩,
        ⟨"a", "/p/a2", "rust", "t2", none⟩] :
        List Project).foldl ProjectRegistry.addProject ⟨[]⟩).getProject "a")
      = some ⟨"a", "/p/a2", "rust", "t2", none⟩ :=
  (addProject_sequence_upsert ⟨[]⟩ (by simp)
    [⟨"a", "/p/a1", "rust", "t1", none⟩, ⟨"a", "/p/a2", "rust", "t2", none⟩]).2
    "a" ⟨"a", "/p/a2", "rust", "t2", none⟩ (by decide)

/--
C2 (code bug): the claim says the persisted `ConfigRecord` contains a
`bin_dir` field and that a default configuration has a `bin_dir` value.  The
`Config` struct declared in src/config.rs serializes exactly the fields in
`Config.fieldNames`, and `bin_dir` is not among them (while `projects_dir`
is), even though src/cli.rs line 333 constructs a `Config` with a `bin_dir`
field derived as `projects_dir.join("bin")` and src/path_manager.rs reads
`config.bin_dir`.
-/
theorem config_struct_has_no_bin_dir :
    "bin_dir" ∉ Config.fieldNames ∧ "projects_dir" ∈ Config.fieldNames
    ∧ cliInitBinDir "/home/u/.murex" = "/home/u/.murex/bin" := by
  refine ⟨by decide, by decide, rfl⟩

/-! ## Persistence: the registry document (`projects.json`)

`ProjectRegistry::save` (src/project.rs lines 218-229) serializes the whole
registry with `serde_json` and writes it; `ProjectRegistry::load`
(lines 206-216) returns the default (empty) registry when the file is
absent, and otherwise parses the document, failing on malformed input.  The
document is modelled at the JSON-value level; rendering a value to text and
parsing it back is `serde_json`'s round-trip, outside this repository. -/

/-- JSON values, as far as the registry document needs them. -/
inductive Json where
  | null : Json
  | jstr : String → Json
  | jarr : List Json → Json
  | jobj : List (String × Json) → Json

/-- Field lookup in a JSON object (serde reads the named field). -/
def Json.getField : Json → String → Option Json
  | .jobj fields, k => fields.lookup k
  | _, _ => none

def Json.asString : Json → Option String
  | .jstr s => some s
  | _ => none

def Json.asArr : Json → Option (List Json)
  | .jarr xs => some xs
  | _ => none

/-- serde encoding of `Option<String>`: `None` is `null`. -/
def encodeOptString : Option String → Json
  | none => .null
  | some s => .jstr s

/-- serde decoding of `Option<String>`. -/
def decodeOptString : Json → Option (Option String)
  | .null => some none
  | .jstr s => some (some s)
  | _ => none

/-- serde serialization of a `Project` (derive on src/project.rs lines 11-18):
an object with the five declared fields. -/
def Project.toJson (p : Project) : Json :=
  .jobj [("name", .jstr p.name), ("path", .jstr p.path),
         ("template", .jstr p.template), ("created_at", .jstr p.created_at),
         ("last_built", encodeOptString p.last_built)]

/-- serde deserialization of a `Project`: every declared field must decode. -/
def Project.fromJson (j : Json) : Option Project := do
  let name ← (j.getField "name").bind Json.asString
  let path ← (j.getField "path").bind Json.asString
  let template ← (j.getField "template").bind Json.asString
  let created_at ← (j.getField "created_at").bind Json.asString
  let last_built ← (j.getField "last_built").bind decodeOptString
  pure { name, path, template, created_at, last_built }

/-- serde serialization of the registry (derive on src/project.rs lines
200-203): an object with the single field `projects` holding the array of
records in order. -/
def ProjectRegistry.toJson (r : ProjectRegistry) : Json :=
  .jobj [("projects", .jarr (r.projects.map Project.toJson))]

/-- serde decoding of a JSON array of records: every element must decode,
in order. -/
def decodeProjects : List Json → Option (List Project)
  | [] => some []
  | j :: js => do
      let p ← Project.fromJson j
      let ps ← decodeProjects js
      pure (p :: ps)

/-- serde deserialization of the registry. -/
def ProjectRegistry.fromJson (j : Json) : Option ProjectRegistry := do
  let pj ← (j.getField "projects").bind Json.asArr
  let ps ← decodeProjects pj
  pure ⟨ps⟩

/-- `ProjectRegistry::save` (src/project.rs lines 218-229): the document it
writes is the full serialization of the current state. -/
def ProjectRegistry.saveDoc (r : ProjectRegistry) : Json := r.toJson

/-- `ProjectRegistry::load` (src/project.rs lines 206-216): when no document
exists the default (empty) registry is returned; otherwise the document is
parsed, a malformed document being a parse error. -/
def ProjectRegistry.loadDoc : Option Json → Except MurexError ProjectRegistry
  | none => .ok ⟨[]⟩
  | some j =>
    match ProjectRegistry.fromJson j with
    | some r => .ok r
    | none => .error .parseError

theorem Project.fromJson_toJson (p : Project) :
    Project.fromJson (Project.toJson p) = some p := by
  cases p with
  | mk name path template created_at last_built => cases last_built <;> rfl

theorem decodeProjects_map_toJson (l : List Project) :
    decodeProjects (l.map Project.toJson) = some l := by
  induction l with
  | nil => rfl
  | cons p l ih =>
    simp [decodeProjects, Project.fromJson_toJson, ih]

/--
C5: for every registry state, including the empty one, the document written
by `save` parses back (`load`) to the very same registry: same records, same
order, same field values.
-/
theorem registry_save_load_roundtrip (r : ProjectRegistry) :
    ProjectRegistry.loadDoc (some r.saveDoc) = .ok r := by
  cases r with
  | mk ps =>
    simp [ProjectRegistry.saveDoc, ProjectRegistry.loadDoc, ProjectRegistry.toJson,
      ProjectRegistry.fromJson, Json.getField, Json.asArr, List.lookup,
      decodeProjects_map_toJson]

/-! ## Templates (src/templates.rs)

A custom template's source directory is modelled as a tree of named entries;
file contents are strings (`fs::read_to_string` / `fs::write` operate on
UTF-8 text, `fs::copy` copies the content verbatim). -/

/-- One entry of a directory: a file with a name and content, or a
subdirectory with a name and its own entries. -/
inductive Entry where
  | file : String → String → Entry
  | dir : String → List Entry → Entry

/-- Split a character list at every `.` (the groups between the dots, in
order; an empty input yields one empty group). -/
def splitOnDot : List Char → List (List Char)
  | [] => [[]]
  | c :: cs =>
    let r := splitOnDot cs
    if c = '.' then [] :: r
    else
      match r with
      | [] => [[c]]
      | g :: gs => (c :: g) :: gs

/-- `Path::extension` of a file name: the part after the last `.` of the
name; none when the name has no `.`, or starts with its only `.`
(hidden files such as `.gitignore`). -/
def extensionOf (name : String) : Option String :=
  match (splitOnDot name.data).map (fun g => (⟨g⟩ : String)) with
  | [] => none
  | [_] => none
  | first :: rest => if first = "" ∧ rest.length = 1 then none else rest.getLast?

/-- The text-file allow-list of `replace_placeholders_in_directory`
(src/templates.rs line 619). -/
def recognizedExtensions : List String := ["rs", "py", "js", "go", "md", "toml", "json"]

/-- Whether a file name has an extension in the allow-list; files without an
extension or with an unrecognized one are never scanned for placeholders. -/
def isTextFile (name : String) : Bool :=
  match extensionOf name with
  | some ext => recognizedExtensions.contains ext
  | none => false

/-- The placeholder token of src/templates.rs line 621. -/
def placeholderToken : String := "\x7b\x7bPROJECT_NAME\x7d\x7d"

/-- `str::replace` of the Rust standard library for a nonempty pattern:
replace every leftmost non-overlapping occurrence of `pat`, scanning left to
right. (The call site always passes the fixed nonempty
`placeholderToken`.) -/
def replaceChars (pat rep : List Char) : List Char → List Char
  | [] => []
  | c :: cs =>
    if pat ≠ [] ∧ pat = (c :: cs).take pat.length then
      rep ++ replaceChars pat rep (cs.drop (pat.length - 1))
    else
      c :: replaceChars pat rep cs
termination_by l => l.length
decreasing_by
  · simp only [List.length_drop, List.length_cons]
    omega
  · simp only [List.length_cons]
    omega

/-- `String::replace` at the string level. -/
def strReplace (s pat rep : String) : String :=
  ⟨replaceChars pat.data rep.data s.data⟩

mutual

/-- `replace_placeholders_in_directory` (src/templates.rs lines 610-628),
acting on one directory entry: recurse into subdirectories; rewrite a file's
content only when its extension is recognized, replacing every occurrence of
the placeholder token with the project name. -/
def replaceEntry (pn : String) : Entry → Entry
  | .file n c => .file n (if isTextFile n then strReplace c placeholderToken pn else c)
  | .dir n cs => .dir n (replaceEntryList pn cs)

/-- The loop of `replace_placeholders_in_directory` over a directory's
entries. -/
def replaceEntryList (pn : String) : List Entry → List Entry
  | [] => []
  | e :: es => replaceEntry pn e :: replaceEntryList pn es

end

mutual

/-- `copy_dir_recursive` (src/templates.rs lines 592-608): directories are
recreated, files are copied byte for byte. -/
def copyEntry : Entry → Entry
  | .file n c => .file n c
  | .dir n cs => .dir n (copyEntryList cs)

/-- The loop of `copy_dir_recursive` over a directory's entries. -/
def copyEntryList : List Entry → List Entry
  | [] => []
  | e :: es => copyEntry e :: copyEntryList es

end

/-- `TemplateManager::create_from_custom_template` (src/templates.rs lines
582-590): copy the template's source tree into the (fresh) project
directory, then run the placeholder pass over the copy. `tpl` is the list of
entries of the template's source directory. -/
def TemplateManager.createFromCustomTemplate (tpl : List Entry) (pn : String) : List Entry :=
  replaceEntryList pn (copyEntryList tpl)

mutual

/-- All files of a directory entry, as (file name, content) pairs. -/
def filesOfEntry : Entry → List (String × String)
  | .file n c => [(n, c)]
  | .dir _ cs => filesOfList cs

/-- All files below a list of entries. -/
def filesOfList : List Entry → List (String × String)
  | [] => []
  | e :: es => filesOfEntry e ++ filesOfList es

end

/-- Spec-side per-file description of the substitution pass: recognized text
files get every occurrence of the token replaced, all other files keep their
content byte for byte. -/
def substFile (pn : String) (f : String × String) : String × String :=
  (f.1, if isTextFile f.1 then strReplace f.2 placeholderToken pn else f.2)

mutual

theorem copyEntry_eq : ∀ e : Entry, copyEntry e = e
  | .file _ _ => rfl
  | .dir n cs => by rw [copyEntry, copyEntryList_eq cs]

theorem copyEntryList_eq : ∀ es : List Entry, copyEntryList es = es
  | [] => rfl
  | e :: es => by rw [copyEntryList, copyEntry_eq e, copyEntryList_eq es]

end

mutual

theorem filesOf_replaceEntry (pn : String) :
    ∀ e : Entry, filesOfEntry (replaceEntry pn e) = (filesOfEntry e).map (substFile pn)
  | .file n c => by simp [replaceEntry, filesOfEntry, substFile]
  | .dir n cs => by
      rw [replaceEntry]
      show filesOfList (replaceEntryList pn cs) = (filesOfList cs).map (substFile pn)
      exact filesOf_replaceList pn cs

theorem filesOf_replaceList (pn : String) :
    ∀ es : List Entry, filesOfList (replaceEntryList pn es) = (filesOfList es).map (substFile pn)
  | [] => rfl
  | e :: es => by
      rw [replaceEntryList, filesOfList, filesOfList, List.map_append,
        filesOf_replaceEntry pn e, filesOf_replaceList pn es]

end

/--
C6: instantiating a custom template maps every file whose extension is in
the recognized text-extension allow-list to its content with every literal
occurrence of the placeholder token replaced by the project name, and copies
every file with an unrecognized (or missing) extension byte for byte; in
particular a `.md` file is rewritten while a `.png` file is not.
-/
theorem custom_template_placeholder_scope (tpl : List Entry) (pn : String) :
    filesOfList (TemplateManager.createFromCustomTemplate tpl pn)
        = (filesOfList tpl).map (substFile pn)
    ∧ isTextFile "README.md" = true ∧ isTextFile "logo.png" = false := by
  refine ⟨?_, by decide, by decide⟩
  rw [TemplateManager.createFromCustomTemplate, copyEntryList_eq]
  exact filesOf_replaceList pn tpl

/-! ## Built-in templates (src/templates.rs lines 112-580)

Each built-in template writes a fixed set of files whose contents are pure
functions of the project name (the `format!` interpolations of the source).
Literal braces, apostrophes and backticks of the generated files are written
with character escapes below. -/

def rustCargoToml (pn : String) : String :=
  "[package]\nname = \"" ++ pn ++ "\"\nversion = \"0.1.0\"\nedition = \"2021\"\n\n[dependencies]\nclap = \x7b version = \"4.0\", features = [\"derive\"] \x7d\nanyhow = \"1.0\"\n"

def rustMainRs (pn : String) : String :=
  "use clap::\x7bParser, Subcommand\x7d;\nuse anyhow::Result;\n\n#[derive(Parser)]\n#[command(name = \"" ++ pn
  ++ "\")]\n#[command(about = \"A CLI utility created with Murex\")]\n#[command(version = \"0.1.0\")]\nstruct Cli \x7b\n    #[command(subcommand)]\n    command: Option<Commands>,\n\x7d\n\n#[derive(Subcommand)]\nenum Commands \x7b\n    /// Say hello\n    Hello \x7b\n        /// Name to greet\n        #[arg(short, long)]\n        name: Option<String>,\n    \x7d,\n\x7d\n\nfn main() -> Result<()> \x7b\n    let cli = Cli::parse();\n    \n    match cli.command \x7b\n        Some(Commands::Hello \x7b name \x7d) => \x7b\n            let name = name.unwrap_or_else(|| \"World\".to_string());\n            println!(\"Hello, \x7b\x7d!\", name);\n        \x7d\n        None => \x7b\n            println!(\"Welcome to " ++ pn
  ++ "! Use --help for more information.\");\n        \x7d\n    \x7d\n    \n    Ok(())\n\x7d\n"

def rustReadme (pn : String) : String :=
  "# " ++ pn ++ "\n\nA CLI utility created with Murex.\n\n## Installation\n\n\x60\x60\x60bash\ncargo build --release\n\x60\x60\x60\n\n## Usage\n\n\x60\x60\x60bash\ncargo run -- hello --name \"Your Name\"\n\x60\x60\x60\n"

def pythonMainPy (pn : String) : String :=
  "#!/usr/bin/env python3\n\"\"\"\n" ++ pn
  ++ " - A CLI utility created with Murex\n\"\"\"\n\nimport argparse\nimport sys\n\ndef main():\n    parser = argparse.ArgumentParser(description=\x27A CLI utility created with Murex\x27)\n    parser.add_argument(\x27--version\x27, action=\x27version\x27, version=\x27%(prog)s 0.1.0\x27)\n    \n    subparsers = parser.add_subparsers(dest=\x27command\x27, help=\x27Available commands\x27)\n    \n    # Hello command\n    hello_parser = subparsers.add_parser(\x27hello\x27, help=\x27Say hello\x27)\n    hello_parser.add_argument(\x27-n\x27, \x27--name\x27, default=\x27World\x27, help=\x27Name to greet\x27)\n    \n    args = parser.parse_args()\n    \n    if args.command == \x27hello\x27:\n        print(f\"Hello, \x7bargs.name\x7d!\")\n    else:\n        print(f\"Welcome to " ++ pn
  ++ "! Use --help for more information.\")\n\nif __name__ == \x27__main__\x27:\n    main()\n"

def pythonRequirements : String := "# Add your dependencies here\n"

def pythonReadme (pn : String) : String :=
  "# " ++ pn ++ "\n\nA CLI utility created with Murex.\n\n## Installation\n\n\x60\x60\x60bash\npip install -r requirements.txt\n\x60\x60\x60\n\n## Usage\n\n\x60\x60\x60bash\npython main.py hello --name \"Your Name\"\n\x60\x60\x60\n"

def nodePackageJson (pn : String) : String :=
  "\x7b\n  \"name\": \"" ++ pn
  ++ "\",\n  \"version\": \"0.1.0\",\n  \"description\": \"A CLI utility created with Murex\",\n  \"main\": \"index.js\",\n  \"bin\": \x7b\n    \"" ++ pn
  ++ "\": \"./index.js\"\n  \x7d,\n  \"scripts\": \x7b\n    \"start\": \"node index.js\"\n  \x7d,\n  \"dependencies\": \x7b\n    \"commander\": \"^9.0.0\"\n  \x7d,\n  \"keywords\": [\"cli\"],\n  \"author\": \"\",\n  \"license\": \"MIT\"\n\x7d\n"

def nodeIndexJs (pn : String) : String :=
  "#!/usr/bin/env node\n\nconst \x7b Command \x7d = require(\x27commander\x27);\nconst program = new Command();\n\nprogram\n  .name(\x27" ++ pn
  ++ "\x27)\n  .description(\x27A CLI utility created with Murex\x27)\n  .version(\x270.1.0\x27);\n\nprogram\n  .command(\x27hello\x27)\n  .description(\x27Say hello\x27)\n  .option(\x27-n, --name <name>\x27, \x27Name to greet\x27, \x27World\x27)\n  .action((options) => \x7b\n    console.log(\x60Hello, $\x7boptions.name\x7d!\x60);\n  \x7d);\n\nif (process.argv.length === 2) \x7b\n  console.log(\x27Welcome to " ++ pn
  ++ "! Use --help for more information.\x27);\n\x7d else \x7b\n  program.parse();\n\x7d\n"

def nodeReadme (pn : String) : String :=
  "# " ++ pn ++ "\n\nA CLI utility created with Murex.\n\n## Installation\n\n\x60\x60\x60bash\nnpm install\n\x60\x60\x60\n\n## Usage\n\n\x60\x60\x60bash\nnode index.js hello --name \"Your Name\"\n\x60\x60\x60\n"

def goGoMod (pn : String) : String :=
  "module " ++ pn
  ++ "\n\ngo 1.19\n\nrequire github.com/spf13/cobra v1.6.1\n\nrequire (\n\tgithub.com/inconshreveable/mousetrap v1.0.1 // indirect\n\tgithub.com/spf13/pflag v1.0.5 // indirect\n)\n"

def goMainGo (pn : String) : String :=
  "package main\n\nimport (\n\t\"fmt\"\n\t\"os\"\n\n\t\"github.com/spf13/cobra\"\n)\n\nvar rootCmd = &cobra.Command\x7b\n\tUse:   \"" ++ pn
  ++ "\",\n\tShort: \"A CLI utility created with Murex\",\n\tLong:  \"A CLI utility created with Murex\",\n\tRun: func(cmd *cobra.Command, args []string) \x7b\n\t\tfmt.Println(\"Welcome to " ++ pn
  ++ "! Use --help for more information.\")\n\t\x7d,\n\x7d\n\nvar helloCmd = &cobra.Command\x7b\n\tUse:   \"hello\",\n\tShort: \"Say hello\",\n\tRun: func(cmd *cobra.Command, args []string) \x7b\n\t\tname, _ := cmd.Flags().GetString(\"name\")\n\t\tfmt.Printf(\"Hello, %s!\\\\n\", name)\n\t\x7d,\n\x7d\n\nfunc init() \x7b\n\thelloCmd.Flags().StringP(\"name\", \"n\", \"World\", \"Name to greet\")\n\trootCmd.AddCommand(helloCmd)\n\x7d\n\nfunc main() \x7b\n\tif err := rootCmd.Execute(); err != nil \x7b\n\t\tfmt.Println(err)\n\t\tos.Exit(1)\n\t\x7d\n\x7d\n"

def goReadme (pn : String) : String :=
  "# " ++ pn ++ "\n\nA CLI utility created with Murex.\n\n## Installation\n\n\x60\x60\x60bash\ngo build -o " ++ pn
  ++ "\n\x60\x60\x60\n\n## Usage\n\n\x60\x60\x60bash\n./" ++ pn ++ " hello --name \"Your Name\"\n\x60\x60\x60\n"

def bashMainSh (pn : String) : String :=
  "#!/bin/bash\n\n# " ++ pn
  ++ "\n# A CLI utility created with Murex\n\n# Hello command\nhello() \x7b\n    name=$\x7b1:-World\x7d\n    echo \"Hello, $name!\"\n\x7d\n\n# Main function\nmain() \x7b\n    case $1 in\n        hello)\n            hello $2\n            ;;\n        --help|-h)\n            echo \"Usage: " ++ pn
  ++ " [command] [options]\"\n            echo \"Commands:\"\n            echo \"  hello [name]  Say hello to someone\"\n            echo \"  --help        Show this help message\"\n            ;;\n        *)\n            echo \"Welcome to " ++ pn
  ++ "! Use --help for more information.\"\n            ;;\n    esac\n\x7d\n\nmain \"$@\"\n"

def bashReadme (pn : String) : String :=
  "# " ++ pn ++ "\n\nA CLI utility created with Murex.\n\n## Installation\n\n\x60\x60\x60bash\nchmod +x main.sh\n\x60\x60\x60\n\n## Usage\n\n\x60\x60\x60bash\n./main.sh hello \"Your Name\"\n\x60\x60\x60\n"

def zshMainZsh (pn : String) : String :=
  "#!/bin/zsh\n\n# " ++ pn
  ++ "\n# A CLI utility created with Murex\n\n# Hello command\nhello() \x7b\n    name=$\x7b1:-World\x7d\n    echo \"Hello, $name!\"\n\x7d\n\n# Main function\nmain() \x7b\n    case $1 in\n        hello)\n            hello $2\n            ;;\n        --help|-h)\n            echo \"Usage: " ++ pn
  ++ " [command] [options]\"\n            echo \"Commands:\"\n            echo \"  hello [name]  Say hello to someone\"\n            echo \"  --help        Show this help message\"\n            ;;\n        *)\n            echo \"Welcome to " ++ pn
  ++ "! Use --help for more information.\"\n            ;;\n    esac\n\x7d\n\nmain \"$@\"\n"

def zshReadme (pn : String) : String :=
  "# " ++ pn ++ "\n\nA CLI utility created with Murex.\n\n## Installation\n\n\x60\x60\x60bash\nchmod +x main.zsh\n\x60\x60\x60\n\n## Usage\n\n\x60\x60\x60bash\n./main.zsh hello \"Your Name\"\n\x60\x60\x60\n"

def bunBunJs (pn : String) : String :=
  "#!/usr/bin/env bun\n\nimport \x7b Command \x7d from \x27bun\x27;\n\nconst program = new Command();\n\nprogram\n  .name(\x27" ++ pn
  ++ "\x27)\n  .description(\x27A CLI utility created with Murex\x27)\n  .version(\x270.1.0\x27);\n\nprogram\n  .command(\x27hello\x27)\n  .description(\x27Say hello\x27)\n  .option(\x27-n, --name <n>\x27, \x27Name to greet\x27, \x27World\x27)\n  .action((options) => \x7b\n    console.log(\x60Hello, $\x7boptions.name\x7d!\x60);\n  \x7d);\n\nif (process.argv.length === 2) \x7b\n  console.log(\x27Welcome to " ++ pn
  ++ "! Use --help for more information.\x27);\n\x7d else \x7b\n  program.parse();\n\x7d\n"

def bunReadme (pn : String) : String :=
  "# " ++ pn ++ "\n\nA CLI utility created with Murex.\n\n## Installation\n\n\x60\x60\x60bash\nbun install\n\x60\x60\x60\n\n## Usage\n\n\x60\x60\x60bash\nbun run bun.js hello --name \"Your Name\"\n\x60\x60\x60\n"

/-- `create_rust_project` (src/templates.rs lines 112-192): relative path and
content of every file it writes under the project directory. -/
def rustFiles (pn : String) : List (String × String) :=
  [("Cargo.toml", rustCargoToml pn), ("src/main.rs", rustMainRs pn), ("README.md", rustReadme pn)]

/-- `create_python_project` (src/templates.rs lines 194-252). -/
def pythonFiles (pn : String) : List (String × String) :=
  [("main.py", pythonMainPy pn), ("requirements.txt", pythonRequirements),
   ("README.md", pythonReadme pn)]

/-- `create_node_project` (src/templates.rs lines 254-327). -/
def nodeFiles (pn : String) : List (String × String) :=
  [("package.json", nodePackageJson pn), ("index.js", nodeIndexJs pn),
   ("README.md", nodeReadme pn)]

/-- `create_go_project` (src/templates.rs lines 329-409). -/
def goFiles (pn : String) : List (String × String) :=
  [("go.mod", goGoMod pn), ("main.go", goMainGo pn), ("README.md", goReadme pn)]

/-- `create_bash_project` (src/templates.rs lines 411-468). -/
def bashFiles (pn : String) : List (String × String) :=
  [("main.sh", bashMainSh pn), ("README.md", bashReadme pn)]

/-- `create_zsh_project` (src/templates.rs lines 470-527). -/
def zshFiles (pn : String) : List (String × String) :=
  [("main.zsh", zshMainZsh pn), ("README.md", zshReadme pn)]

/-- `create_bun_project` (src/templates.rs lines 529-580). -/
def bunFiles (pn : String) : List (String × String) :=
  [("bun.js", bunBunJs pn), ("README.md", bunReadme pn)]

/-- The fixed built-in template identifiers (src/templates.rs lines 72-89 and
the dispatch arms of lines 94-101). -/
def builtinTemplateIds : List String :=
  ["rust", "python", "node", "go", "bash", "zsh", "bun"]

/-- Observable outcome of `create_project_from_template`: whether the target
directory was created, which files were materialized inside it, and the
returned result. -/
structure TplOutcome where
  dirCreated : Bool
  written : List (String × String)
  result : Except MurexError Unit
deriving Repr

/-- `TemplateManager::create_project_from_template` (src/templates.rs lines
91-110): first `fs::create_dir_all(project_path)`, then dispatch on the
identifier — built-ins first, then the registered custom templates, and
otherwise the unknown-template error.  `customs` is the manager's
`custom_templates` map as an association list of (name, source-directory
entries). -/
def TemplateManager.createProjectFromTemplate
    (customs : List (String × List Entry)) (template pn : String) : TplOutcome :=
  let dispatch : Except MurexError (List (String × String)) :=
    if template = "rust" then .ok (rustFiles pn)
    else if template = "python" then .ok (pythonFiles pn)
    else if template = "node" then .ok (nodeFiles pn)
    else if template = "go" then .ok (goFiles pn)
    else if template = "bash" then .ok (bashFiles pn)
    else if template = "zsh" then .ok (zshFiles pn)
    else if template = "bun" then .ok (bunFiles pn)
    else
      match customs.lookup template with
      | some tpl => .ok (filesOfList (TemplateManager.createFromCustomTemplate tpl pn))
      | none => .error .unknownTemplate
  { dirCreated := true
    written := match dispatch with | .ok fs => fs | .error _ => []
    result := match dispatch with | .ok _ => .ok () | .error e => .error e }

/--
C7: an identifier that is neither a built-in template nor a registered
custom template makes `create_project_from_template` fail with the
unknown-template error, after having created only the (empty) target
directory and no files inside it.
-/
theorem unknown_template_rejected (customs : List (String × List Entry))
    (template pn : String)
    (hb : template ∉ builtinTemplateIds)
    (hc : customs.lookup template = none) :
    (TemplateManager.createProjectFromTemplate customs template pn).result
        = .error .unknownTemplate
    ∧ (TemplateManager.createProjectFromTemplate customs template pn).written = []
    ∧ (TemplateManager.createProjectFromTemplate customs template pn).dirCreated = true := by
  simp only [builtinTemplateIds, List.mem_cons, List.not_mem_nil, or_false] at hb
  push_neg at hb
  obtain ⟨h1, h2, h3, h4, h5, h6, h7⟩ := hb
  refine ⟨?_, ?_, rfl⟩ <;>
    simp [TemplateManager.createProjectFromTemplate, h1, h2, h3, h4, h5, h6, h7, hc]

/-- Witness for C7: the identifier `nonexistent` with no registered custom
templates. -/
theorem unknown_template_rejected_witness :
    (TemplateManager.createProjectFromTemplate [] "nonexistent" "x").result
        = .error .unknownTemplate
    ∧ (TemplateManager.createProjectFromTemplate [] "nonexistent" "x").written = []
    ∧ (TemplateManager.createProjectFromTemplate [] "nonexistent" "x").dirCreated = true :=
  unknown_template_rejected [] "nonexistent" "x" (by decide) rfl

/-! ## ProjectManager (src/project.rs lines 252-312)

The manager owns the in-memory registry; `save` rewrites the persisted
document.  `savedDoc` models the content of `projects.json` (`none` when it
has not been written in the modelled window). -/

/-- In-memory registry plus the persisted registry document. -/
structure ManagerState where
  registry : ProjectRegistry
  savedDoc : Option (List Project)
deriving DecidableEq, Repr

/-- `ProjectManager::create_project` (src/project.rs lines 265-281):
check the target path on disk first, then instantiate the template, and only
on success construct the record, upsert it and persist the registry.
`fsExists` models `Path::exists`; `instResult` is the outcome of the
`create_project_from_template` call at this path (its file-system failures
included); `now` is the formatted current time of `Project::new`. -/
def ProjectManager.createProject (fsExists : String → Bool)
    (instResult : Except MurexError Unit)
    (st : ManagerState) (projectsDir name template now : String) :
    ManagerState × Except MurexError Project :=
  let projectPath := pathJoin projectsDir name
  if fsExists projectPath then
    (st, .error .alreadyExists)
  else
    match instResult with
    | .error e => (st, .error e)
    | .ok _ =>
      let p : Project :=
        { name := name, path := projectPath, template := template,
          created_at := now, last_built := none }
      let reg := st.registry.addProject p
      ({ registry := reg, savedDoc := some reg.projects }, .ok p)

/-- `ProjectManager::remove_project` (src/project.rs lines 294-307): if a
record with the name exists and its directory exists on disk, recursively
delete the directory (`?` propagates a failure); then drop the record from
the registry, failing with the not-found error when nothing was dropped, and
persist.  `removeDirOk` models whether `fs::remove_dir_all` succeeds at a
path. -/
def ProjectManager.removeProject (fsExists : String → Bool)
    (removeDirOk : String → Bool)
    (st : ManagerState) (name : String) :
    ManagerState × Except MurexError Unit :=
  let deletion : Except MurexError Unit :=
    match st.registry.getProject name with
    | some p =>
      if fsExists p.path then
        if removeDirOk p.path then .ok () else .error .ioError
      else .ok ()
    | none => .ok ()
  match deletion with
  | .error e => (st, .error e)
  | .ok _ =>
    let removed := st.registry.removedAny name
    let reg := st.registry.removeProjectReg name
    if removed then
      ({ registry := reg, savedDoc := some reg.projects }, .ok ())
    else
      ({ st with registry := reg }, .error .notFound)

/--
C3: when a file or directory already exists at `projects_dir/name`,
`create_project` fails with the already-exists error, leaving the registry
and the persisted document untouched (the existence check runs before any
registry mutation); and when instantiation fails, the error propagates and
again no registry entry is written and nothing is saved.
-/
theorem create_project_no_clobber (fsExists : String → Bool)
    (instResult : Except MurexError Unit) (st : ManagerState)
    (projectsDir name template now : String) :
    (fsExists (pathJoin projectsDir name) = true →
      ProjectManager.createProject fsExists instResult st projectsDir name template now
        = (st, .error .alreadyExists))
    ∧ ∀ e, fsExists (pathJoin projectsDir name) = false →
        instResult = .error e →
        ProjectManager.createProject fsExists instResult st projectsDir name template now
          = (st, .error e) := by
  constructor
  · intro h
    simp [ProjectManager.createProject, h]
  · intro e h hinst
    simp [ProjectManager.createProject, h, hinst]

/-- Witness for C3: a concrete state where the target path exists, and one
where instantiation fails. -/
theorem create_project_no_clobber_witness :
    (ProjectManager.createProject (fun s => s == "/pd/foo") (.ok ())
        ⟨⟨[]⟩, none⟩ "/pd" "foo" "rust" "t0"
      = (⟨⟨[]⟩, none⟩, .error .alreadyExists))
    ∧ (ProjectManager.createProject (fun _ => false) (.error .ioError)
        ⟨⟨[]⟩, none⟩ "/pd" "foo" "rust" "t0"
      = (⟨⟨[]⟩, none⟩, .error .ioError)) :=
  ⟨(create_project_no_clobber (fun s => s == "/pd/foo") (.ok ())
      ⟨⟨[]⟩, none⟩ "/pd" "foo" "rust" "t0").1 (by decide),
   (create_project_no_clobber (fun _ => false) (.error .ioError)
      ⟨⟨[]⟩, none⟩ "/pd" "foo" "rust" "t0").2 .ioError rfl rfl⟩

/-- `get_project` finding a record implies `removedAny` is true. -/
theorem removedAny_of_getProject (r : ProjectRegistry) {name : String} {p : Project}
    (h : r.getProject name = some p) : r.removedAny name = true := by
  unfold ProjectRegistry.getProject at h
  unfold ProjectRegistry.removedAny
  rw [List.any_eq_true]
  exact ⟨p, List.mem_of_find?_eq_some h, by
    have := List.find?_some h
    simpa using this⟩

/-- After `removeProjectReg`, no record with the removed name remains. -/
theorem getProject_removeProjectReg (r : ProjectRegistry) (name : String) :
    (r.removeProjectReg name).getProject name = none := by
  unfold ProjectRegistry.removeProjectReg ProjectRegistry.getProject
  rw [List.find?_eq_none]
  intro q hq
  have := List.of_mem_filter hq
  simp only [bne_iff_ne, ne_eq] at this
  simp [this]

/--
C4: `remove_project` fails with the not-found error when no record with the
name exists; when a record exists and deleting its directory fails, the
error propagates with the registry entry and the persisted document left
intact; and when the record exists and deletion succeeds (the directory
being present), the entry is removed and the registry is persisted without
it.
-/
theorem remove_project_error_handling (fsExists removeDirOk : String → Bool)
    (st : ManagerState) (name : String) :
    (st.registry.getProject name = none →
      (ProjectManager.removeProject fsExists removeDirOk st name).2 = .error .notFound
      ∧ (ProjectManager.removeProject fsExists removeDirOk st name).1.savedDoc = st.savedDoc)
    ∧ (∀ p, st.registry.getProject name = some p →
        fsExists p.path = true → removeDirOk p.path = false →
        ProjectManager.removeProject fsExists removeDirOk st name = (st, .error .ioError))
    ∧ (∀ p, st.registry.getProject name = some p →
        fsExists p.path = true → removeDirOk p.path = true →
        ProjectManager.removeProject fsExists removeDirOk st name
          = (⟨st.registry.removeProjectReg name,
              some (st.registry.removeProjectReg name).projects⟩, .ok ())
        ∧ (st.registry.removeProjectReg name).getProject name = none) := by
  refine ⟨?_, ?_, ?_⟩
  · intro h
    have hrem : st.registry.removedAny name = false := by
      unfold ProjectRegistry.getProject at h
      unfold ProjectRegistry.removedAny
      rw [List.find?_eq_none] at h
      rw [List.any_eq_false]
      exact h
    simp [ProjectManager.removeProject, h, hrem]
  · intro p h hfs hrm
    simp [ProjectManager.removeProject, h, hfs, hrm]
  · intro p h hfs hrm
    refine ⟨?_, getProject_removeProjectReg _ _⟩
    simp [ProjectManager.removeProject, h, hfs, hrm, removedAny_of_getProject _ h]

/-- Witness for C4 at concrete inputs: an empty registry gives not-found; a
registry with one record whose directory cannot be deleted keeps the record;
the same record with deletion succeeding is removed and persisted. -/
theorem remove_project_error_handling_witness :
    ((ProjectManager.removeProject (fun _ => false) (fun _ => false) ⟨⟨[]⟩, none⟩ "a").2
        = .error .notFound)
    ∧ (ProjectManager.removeProject (fun _ => true) (fun _ => false)
        ⟨⟨[⟨"a", "/p/a", "rust", "t1", none⟩]⟩, none⟩ "a"
        = (⟨⟨[⟨"a", "/p/a", "rust", "t1", none⟩]⟩, none⟩, .error .ioError))
    ∧ (ProjectManager.removeProject (fun _ => true) (fun _ => true)
        ⟨⟨[⟨"a", "/p/a", "rust", "t1", none⟩]⟩, none⟩ "a"
        = (⟨⟨[]⟩, some []⟩, .ok ())) := by
  refine ⟨((remove_project_error_handling (fun _ => false) (fun _ => false)
      ⟨⟨[]⟩, none⟩ "a").1 rfl).1, ?_, ?_⟩
  · exact (remove_project_error_handling (fun _ => true) (fun _ => false)
      ⟨⟨[⟨"a", "/p/a", "rust", "t1", none⟩]⟩, none⟩ "a").2.1
      ⟨"a", "/p/a", "rust", "t1", none⟩ (by decide) rfl rfl
  · have := ((remove_project_error_handling (fun _ => true) (fun _ => true)
      ⟨⟨[⟨"a", "/p/a", "rust", "t1", none⟩]⟩, none⟩ "a").2.2
      ⟨"a", "/p/a", "rust", "t1", none⟩ (by decide) rfl rfl).1
    simpa [ProjectRegistry.removeProjectReg] using this

/--
C10: when a record exists but its recorded directory is absent on disk,
`remove_project` skips the deletion, removes the registry entry, persists
the registry without it, and succeeds.
-/
theorem remove_project_missing_dir (fsExists removeDirOk : String → Bool)
    (st : ManagerState) (name : String) (p : Project)
    (h : st.registry.getProject name = some p)
    (hfs : fsExists p.path = false) :
    ProjectManager.removeProject fsExists removeDirOk st name
      = (⟨st.registry.removeProjectReg name,
          some (st.registry.removeProjectReg name).projects⟩, .ok ()) := by
  simp [ProjectManager.removeProject, h, hfs, removedAny_of_getProject _ h]

/-- Witness for C10: one record whose directory does not exist. -/
theorem remove_project_missing_dir_witness :
    ProjectManager.removeProject (fun _ => false) (fun _ => false)
        ⟨⟨[⟨"a", "/p/a", "rust", "t1", none⟩]⟩, none⟩ "a"
      = (⟨⟨[]⟩, some []⟩, .ok ()) := by
  have := remove_project_missing_dir (fun _ => false) (fun _ => false)
    ⟨⟨[⟨"a", "/p/a", "rust", "t1", none⟩]⟩, none⟩ "a"
    ⟨"a", "/p/a", "rust", "t1", none⟩ (by decide) rfl
  simpa [ProjectRegistry.removeProjectReg] using this

/-! ## PathManager (src/path_manager.rs)

The managed bin directory is modelled as an association list from entry name
to the path the symlink points at (install creates symlinks on Unix).
`Path::exists` on an entry of the bin directory follows the symlink: it
holds only when the link's target exists. -/

/-- Lookup of a directory entry by name. -/
def lookupEntry : List (String × String) → String → Option String
  | [], _ => none
  | e :: es, n => if e.1 = n then some e.2 else lookupEntry es n

/-- `fs::remove_file` of the entry with the given name. -/
def eraseEntries (bin : List (String × String)) (n : String) : List (String × String) :=
  bin.filter (fun e => e.1 != n)

/-- `PathManager::find_project_binary` (src/path_manager.rs lines 99-163):
per-template resolution; for `rust` the release path is preferred over the
debug path; each arm fails with a not-found error when the expected file is
absent; an unrecognized template is an unknown-template error. -/
def PathManager.findProjectBinary (fsExists : String → Bool) (p : Project) :
    Except MurexError String :=
  if p.template = "rust" then
    let releasePath := pathJoin (pathJoin p.path "target/release") p.name
    let debugPath := pathJoin (pathJoin p.path "target/debug") p.name
    if fsExists releasePath then .ok releasePath
    else if fsExists debugPath then .ok debugPath
    else .error .notFound
  else if p.template = "go" then
    let binaryPath := pathJoin p.path p.name
    if fsExists binaryPath then .ok binaryPath else .error .notFound
  else if p.template = "python" then
    let scriptPath := pathJoin p.path "main.py"
    if fsExists scriptPath then .ok scriptPath else .error .notFound
  else if p.template = "node" then
    let scriptPath := pathJoin p.path "index.js"
    if fsExists scriptPath then .ok scriptPath else .error .notFound
  else if p.template = "bash" then
    let scriptPath := pathJoin p.path "main.sh"
    if fsExists scriptPath then .ok scriptPath else .error .notFound
  else if p.template = "zsh" then
    let scriptPath := pathJoin p.path "main.zsh"
    if fsExists scriptPath then .ok scriptPath else .error .notFound
  else if p.template = "bun" then
    let scriptPath := pathJoin p.path "bun.js"
    if fsExists scriptPath then .ok scriptPath else .error .notFound
  else .error .unknownTemplate

/-- `PathManager::install_project` (src/path_manager.rs lines 32-61): resolve
the artifact; if `bin_dir/name` exists (the check follows symlinks), remove
it; then create a symlink named after the project pointing at the artifact
(symlink creation fails when an entry is still present at the path). -/
def PathManager.installProject (fsExists : String → Bool)
    (bin : List (String × String)) (p : Project) :
    Except MurexError (List (String × String)) :=
  match PathManager.findProjectBinary fsExists p with
  | .error e => .error e
  | .ok binaryPath =>
    let targetExists : Bool :=
      match lookupEntry bin p.name with
      | some tgt => fsExists tgt
      | none => false
    let bin1 := if targetExists then eraseEntries bin p.name else bin
    match lookupEntry bin1 p.name with
    | some _ => .error .ioError
    | none => .ok (bin1 ++ [(p.name, binaryPath)])

theorem lookupEntry_eraseEntries (bin : List (String × String)) (n : String) :
    lookupEntry (eraseEntries bin n) n = none := by
  induction bin with
  | nil => rfl
  | cons e es ih =>
    by_cases h : e.1 = n
    · simp [eraseEntries, List.filter_cons, h] at ih ⊢
      exact ih
    · simp only [eraseEntries, List.filter_cons] at ih ⊢
      simp [h, lookupEntry, ih]

theorem eraseEntries_of_lookup_none (bin : List (String × String)) (n : String)
    (h : lookupEntry bin n = none) : eraseEntries bin n = bin := by
  induction bin with
  | nil => rfl
  | cons e es ih =>
    rw [lookupEntry] at h
    by_cases he : e.1 = n
    · rw [if_pos he] at h
      exact absurd h (by simp)
    · rw [if_neg he] at h
      simp [eraseEntries, List.filter_cons, he] at ih ⊢
      exact ih h

theorem lookupEntry_append_of_none (xs ys : List (String × String)) (n : String)
    (h : lookupEntry xs n = none) :
    lookupEntry (xs ++ ys) n = lookupEntry ys n := by
  induction xs with
  | nil => rfl
  | cons e es ih =>
    rw [lookupEntry] at h
    by_cases he : e.1 = n
    · rw [if_pos he] at h
      exact absurd h (by simp)
    · rw [if_neg he] at h
      rw [List.cons_append, lookupEntry, if_neg he]
      exact ih h

theorem eraseEntries_append (xs ys : List (String × String)) (n : String) :
    eraseEntries (xs ++ ys) n = eraseEntries xs n ++ eraseEntries ys n :=
  List.filter_append _ _

theorem eraseEntries_idem (bin : List (String × String)) (n : String) :
    eraseEntries (eraseEntries bin n) n = eraseEntries bin n := by
  simp [eraseEntries, List.filter_filter]

theorem filter_eraseEntries_self (bin : List (String × String)) (n : String) :
    (eraseEntries bin n).filter (fun e => e.1 == n) = [] := by
  rw [List.filter_eq_nil_iff]
  intro e he
  have := List.of_mem_filter he
  simp only [bne_iff_ne, ne_eq] at this
  simp [this]

/-- `find_project_binary` only returns paths that exist on disk. -/
theorem findProjectBinary_exists (fsExists : String → Bool) (p : Project)
    {b : String} (h : PathManager.findProjectBinary fsExists p = .ok b) :
    fsExists b = true := by
  unfold PathManager.findProjectBinary at h
  simp only [] at h
  split_ifs at h <;> simp_all

/--
C8: for a project record with the compiled-binary `rust` template,
`find_project_binary` returns `target/release/<name>` when that path exists,
otherwise `target/debug/<name>` when that exists, and fails with the
not-found error when neither exists.
-/
theorem find_project_binary_rust_fallback (fsExists : String → Bool) (p : Project)
    (h : p.template = "rust") :
    (fsExists (pathJoin (pathJoin p.path "target/release") p.name) = true →
      PathManager.findProjectBinary fsExists p
        = .ok (pathJoin (pathJoin p.path "target/release") p.name))
    ∧ (fsExists (pathJoin (pathJoin p.path "target/release") p.name) = false →
       fsExists (pathJoin (pathJoin p.path "target/debug") p.name) = true →
      PathManager.findProjectBinary fsExists p
        = .ok (pathJoin (pathJoin p.path "target/debug") p.name))
    ∧ (fsExists (pathJoin (pathJoin p.path "target/release") p.name) = false →
       fsExists (pathJoin (pathJoin p.path "target/debug") p.name) = false →
      PathManager.findProjectBinary fsExists p = .error .notFound) := by
  refine ⟨fun hrel => ?_, fun hrel hdbg => ?_, fun hrel hdbg => ?_⟩
  · simp [PathManager.findProjectBinary, h, hrel]
  · simp [PathManager.findProjectBinary, h, hrel, hdbg]
  · simp [PathManager.findProjectBinary, h, hrel, hdbg]

/-- Witness for C8: a rust project with only the debug binary present. -/
theorem find_project_binary_rust_fallback_witness :
    PathManager.findProjectBinary (fun s => s == "/pr/x/target/debug/x")
        ⟨"x", "/pr/x", "rust", "t1", none⟩
      = .ok "/pr/x/target/debug/x" :=
  (find_project_binary_rust_fallback (fun s => s == "/pr/x/target/debug/x")
      ⟨"x", "/pr/x", "rust", "t1", none⟩ rfl).2.1 (by decide) (by decide)

/--
C9: for a project whose artifact resolves, installing twice in succession
succeeds both times, the second call overwrites the link left by the first,
and the final bin directory holds exactly one entry named after the project,
pointing at the resolved artifact.  The initial bin directory is assumed not
to hold a dangling link under the project's name (any entry it holds under
that name points at an existing file).
-/
theorem install_project_idempotent (fsExists : String → Bool)
    (bin : List (String × String)) (p : Project) (b : String)
    (hres : PathManager.findProjectBinary fsExists p = .ok b)
    (hclean : ∀ tgt, lookupEntry bin p.name = some tgt → fsExists tgt = true) :
    ∃ bin1,
      PathManager.installProject fsExists bin p = .ok bin1
      ∧ PathManager.installProject fsExists bin1 p = .ok bin1
      ∧ bin1.filter (fun e => e.1 == p.name) = [(p.name, b)] := by
  have hb : fsExists b = true := findProjectBinary_exists fsExists p hres
  refine ⟨eraseEntries bin p.name ++ [(p.name, b)], ?_, ?_, ?_⟩
  · unfold PathManager.installProject
    rw [hres]
    cases hl : lookupEntry bin p.name with
    | none =>
      simp only [hl]
      rw [eraseEntries_of_lookup_none bin p.name hl]
      simp [hl]
    | some tgt =>
      have := hclean tgt hl
      simp only [hl, this, if_pos]
      rw [lookupEntry_eraseEntries]
  · unfold PathManager.installProject
    rw [hres]
    have hl1 : lookupEntry (eraseEntries bin p.name ++ [(p.name, b)]) p.name = some b := by
      rw [lookupEntry_append_of_none _ _ _ (lookupEntry_eraseEntries bin p.name)]
      simp [lookupEntry]
    simp only [hl1, hb, if_pos]
    rw [eraseEntries_append]
    have h2 : eraseEntries [(p.name, b)] p.name = [] := by
      simp [eraseEntries, List.filter_cons]
    rw [h2, List.append_nil, eraseEntries_idem]
    rw [lookupEntry_eraseEntries]
  · rw [List.filter_append, filter_eraseEntries_self]
    simp [List.filter_cons]

/-- Witness for C9: an empty bin directory and a rust project with a release
binary. -/
theorem install_project_idempotent_witness :
    ∃ bin1,
      PathManager.installProject (fun s => s == "/pr/x/target/release/x") []
          ⟨"x", "/pr/x", "rust", "t1", none⟩ = .ok bin1
      ∧ PathManager.installProject (fun s => s == "/pr/x/target/release/x") bin1
          ⟨"x", "/pr/x", "rust", "t1", none⟩ = .ok bin1
      ∧ bin1.filter (fun e => e.1 == "x") = [("x", "/pr/x/target/release/x")] :=
  install_project_idempotent (fun s => s == "/pr/x/target/release/x") []
    ⟨"x", "/pr/x", "rust", "t1", none⟩ "/pr/x/target/release/x"
    rfl (fun tgt h => by cases h)

end Murex
